import Mathlib

/-!
# kubectl-peek: verification of the pagination controller and resource resolver

Shallow embedding of `src/main.go` of the `kubectl-peek` plugin.  The
source contains two variants of the program (a Table-negotiating
REST-client variant, lines 1-309, and a dynamic-client variant, lines
310-576); both share the same option validation, resource resolution and
pagination control flow.

The embedding models the observable behaviour of the pagination loop in
`(*PeekOptions).Run`: the sequence of continuation tokens sent to the
server, the auxiliary output lines it prints, the keystrokes it consumes,
and how the loop ends.  The external collaborators (the HTTP transport,
the table printer, the REST mapper) are modelled as parameters: the
server is a scripted list of page responses consumed in order (running
out of script models a failing fetch, the `err != nil` branch after the
list call), the keystroke stream is a list of characters (an exhausted
stream models a failed `ReadRune`, e.g. a closed stdin), and the mapper
is a function parameter of the resolver.
-/

namespace KubectlPeek

/-- One page response from the server, as the loop observes it:
`rows` is `len(table.Rows)` (resp. `len(list.Items)` in the dynamic
variant) and `cont` is `table.Continue` (resp. `list.GetContinue()`).
An empty `cont` means the collection is exhausted. -/
structure PageResponse where
  rows : Nat
  cont : String
deriving DecidableEq, Repr

/-- The auxiliary output events the loop can emit, in order of emission.
`renderPage` stands for handing the page to the (external) printer;
all other events are fixed literals printed by the loop itself
(see `OutEvent.text`). -/
inductive OutEvent where
  | noResources
  | renderPage (rows : Nat)
  | endOfList
  | continueTokenLine (token : String)
  | prompt
  | echoNewline
deriving DecidableEq, Repr

/-- The literal bytes each event writes (src/main.go lines 221, 237, 244,
250, 256).  The table body produced by the external printer for
`renderPage` is not modelled (the Renderer is an external collaborator);
all other strings are the literals from the source. -/
def OutEvent.text : OutEvent → String
  | .noResources => "No resources found.\n"
  | .renderPage _ => ""
  | .endOfList => "\n--- End of list ---\n"
  | .continueTokenLine t => "\nContinue Token: " ++ t ++ "\n"
  | .prompt => "\n--- [n] next page, [q] quit: "
  | .echoNewline => "\n"

/-- How `Run` returned: `ok` is `return nil` (process exit code 0),
`fetchErr` is the `return err` after a failed list call, and `readErr`
is the `return err` after a failed `ReadRune` (both make `RunE` fail,
so the process exits non-zero). -/
inductive RunResult where
  | ok
  | fetchErr
  | readErr
deriving DecidableEq, Repr

/-- The observable outcome of one execution of the pagination loop:
`requests` is the list of `Continue` tokens sent, one per iteration, in
order (the `Limit` and `LabelSelector` fields of every request are the
constants `o.limit` and `o.selector` and are not repeated here);
`output` is the list of auxiliary output events; `keysLeft` is the part
of the keystroke stream never read; `result` is how `Run` returned. -/
structure RunState where
  requests : List String
  output : List OutEvent
  keysLeft : List Char
  result : RunResult
deriving DecidableEq, Repr

/-- Whether the invocation exits with code 0: `RunE` returns the error of
`Run` and `main` exits 1 on any error. -/
def RunState.exitSuccess (s : RunState) : Bool :=
  s.result = RunResult.ok

/-- The pagination loop of `(*PeekOptions).Run` (src/main.go lines
198-259; the dynamic-client variant is `runFromDyn`).  Arguments mirror
the loop state: `it` is `o.interactive`, `token` is the current value of
`continueToken`, `first` of `isFirstRequest`; `pages` is the scripted
server, `keys` the keystroke stream.

Each iteration sends one request (recorded in `requests`), then:
an exhausted script is a failing fetch (`return err`); a first page with
zero rows prints "No resources found." and returns nil; otherwise the
page is rendered and the token updated.  An empty token ends the list
(end-of-list marker when interactive).  With a token, interactive mode
prompts and reads one keystroke — a failed read is `return err`, a
keystroke other than `n` is `return nil` after echoing a newline, and
`n` loops with the new token — while non-interactive mode prints the
token line and returns nil. -/
def runFrom (it : Bool) (token : String) (first : Bool)
    (pages : List PageResponse) (keys : List Char) : RunState :=
  match pages with
  | [] => ⟨[token], [], keys, .fetchErr⟩
  | p :: rest =>
    if first = true ∧ p.rows = 0 then
      ⟨[token], [.noResources], keys, .ok⟩
    else
      if p.cont = "" then
        ⟨[token], .renderPage p.rows :: (if it then [.endOfList] else []), keys, .ok⟩
      else
        if it then
          match keys with
          | [] => ⟨[token], [.renderPage p.rows, .prompt], [], .readErr⟩
          | c :: krest =>
            if c = 'n' then
              let s := runFrom it p.cont false rest krest
              ⟨token :: s.requests,
               .renderPage p.rows :: .prompt :: .echoNewline :: s.output,
               s.keysLeft, s.result⟩
            else
              ⟨[token], [.renderPage p.rows, .prompt, .echoNewline], krest, .ok⟩
        else
          ⟨[token], [.renderPage p.rows, .continueTokenLine p.cont], keys, .ok⟩

/-- The same loop as written a second time in the source, in the
dynamic-client variant of `Run` (src/main.go lines 481-539).  It differs
from the first variant only in how a page is fetched (dynamic client
instead of Table-negotiating REST client) and rendered
(`o.printFlags.ToPrinter()` instead of a fixed table printer); the
control flow, observed through `rows = len(list.Items)` and
`cont = list.GetContinue()`, is translated independently here so the two
can be compared. -/
def runFromDyn (it : Bool) (token : String) (first : Bool)
    (pages : List PageResponse) (keys : List Char) : RunState :=
  match pages with
  | [] => ⟨[token], [], keys, .fetchErr⟩
  | p :: rest =>
    if first = true ∧ p.rows = 0 then
      ⟨[token], [.noResources], keys, .ok⟩
    else
      if p.cont = "" then
        ⟨[token], .renderPage p.rows :: (if it then [.endOfList] else []), keys, .ok⟩
      else
        if it then
          match keys with
          | [] => ⟨[token], [.renderPage p.rows, .prompt], [], .readErr⟩
          | c :: krest =>
            if c = 'n' then
              let s := runFromDyn it p.cont false rest krest
              ⟨token :: s.requests,
               .renderPage p.rows :: .prompt :: .echoNewline :: s.output,
               s.keysLeft, s.result⟩
            else
              ⟨[token], [.renderPage p.rows, .prompt, .echoNewline], krest, .ok⟩
        else
          ⟨[token], [.renderPage p.rows, .continueTokenLine p.cont], keys, .ok⟩

/-- The user-settable options consulted by `Validate` and the loop
(fields of `PeekOptions` in the source; `outputFormat` is
`*o.printFlags.OutputFormat`, empty for the default table format). -/
structure PeekOptions where
  limit : Int
  continueToken : String
  interactive : Bool
  selector : String
  allNamespaces : Bool
  outputFormat : String
deriving DecidableEq, Repr

/-- `(*PeekOptions).Validate` (src/main.go lines 166-178): checks run in
source order and the first failure is returned. -/
def Validate (o : PeekOptions) : Except String Unit :=
  if o.limit ≤ 0 then
    .error "--limit must be a positive number"
  else if o.interactive = true ∧ o.continueToken ≠ "" then
    .error "cannot use --interactive and --continue flags together"
  else if o.interactive = true ∧ o.outputFormat ≠ "" ∧ o.outputFormat ≠ "wide" then
    .error "interactive mode is only supported for standard and wide table output"
  else
    .ok ()

/-- Outcome of the whole command: either `Validate` failed (so `RunE`
returned before `Run` and no request was issued), or the loop ran. -/
inductive CmdOutcome where
  | configError (msg : String)
  | ran (s : RunState)
deriving DecidableEq, Repr

/-- The `RunE` pipeline restricted to its modelled steps (src/main.go
lines 100-119): `Validate` gates `Run`.  (`Complete`, which runs before
`Validate`, only constructs clients from local configuration and issues
no request; the GVR resolution done at the top of `Run` is modelled
separately by `getResourceGVR`.) -/
def cmdRun (o : PeekOptions) (pages : List PageResponse) (keys : List Char) : CmdOutcome :=
  match Validate o with
  | .error e => .configError e
  | .ok _ => .ran (runFrom o.interactive o.continueToken true pages keys)

/-- Continuation tokens sent over the wire by the command. -/
def CmdOutcome.requests : CmdOutcome → List String
  | .configError _ => []
  | .ran s => s.requests

/-- Output events on the normal output stream. -/
def CmdOutcome.output : CmdOutcome → List OutEvent
  | .configError _ => []
  | .ran s => s.output

/-- Whether the process exits with code 0 (`RunE` errors, including
configuration errors, make `main` exit 1; the message goes to the error
stream). -/
def CmdOutcome.exitSuccess : CmdOutcome → Bool
  | .configError _ => false
  | .ran s => s.exitSuccess

/-!
## Resource resolution

`getResourceGVR` (src/main.go lines 276-296) works on Go strings, which
we embed as `List Char` so that Go's `strings.ToLower` and
`strings.Split(s, ".")` become the structurally recursive functions
below, and the `%q` quoting of the error message can be made explicit.
-/

/-- Go `strings.ToLower` as it acts on ASCII strings: per-character
lower-casing.  (On non-ASCII input Go lower-cases by Unicode rules,
which this per-character ASCII map does not reproduce; the resolver
theorem below therefore restricts its inputs to printable ASCII, where
the two agree.) -/
def goToLower (s : List Char) : List Char :=
  s.map Char.toLower

/-- Prepend a character to the first segment of a segment list. -/
def consHead (c : Char) : List (List Char) → List (List Char)
  | [] => [[c]]
  | h :: t => (c :: h) :: t

/-- Go `strings.Split(s, ".")`: the maximal dot-free segments of `s`, in
order; always non-empty (an empty string yields one empty segment). -/
def splitOnDot : List Char → List (List Char)
  | [] => [[]]
  | c :: rest =>
    if c = '.' then [] :: splitOnDot rest else consHead c (splitOnDot rest)

/-- `schema.GroupVersionResource`: the canonical triple the mapper
resolves to. -/
structure GroupVersionResource where
  group : List Char
  version : List Char
  resource : List Char
deriving DecidableEq, Repr

/-- The partial GVR built from the (already lower-cased) user argument
(src/main.go lines 282-288): with exactly two dot-separated parts the
left is the resource and the right the group, otherwise the whole
argument is the resource and the group is left empty; the version is
always left empty for the mapper to choose. -/
def gvrToFind (resourceArg : List Char) : GroupVersionResource :=
  match splitOnDot resourceArg with
  | [name, group] => ⟨group, [], name⟩
  | _ => ⟨[], [], resourceArg⟩

/-- A string of printable ASCII characters (0x20 space through 0x7E
tilde).  On this domain `goToLower` agrees with Go's `strings.ToLower`
and `goQuoteBody` with the body of Go's `%q`; the resolver theorem
below carries this as a hypothesis. -/
def PrintableAscii (s : List Char) : Prop :=
  ∀ c ∈ s, 0x20 ≤ c.toNat ∧ c.toNat ≤ 0x7E

/-- Body of Go's `%q` quoting as it acts on strings of printable ASCII
characters: each `"` and `\` is backslash-escaped and every other
character is copied.  (On non-printable or non-ASCII characters `%q`
additionally produces numeric or symbolic escapes — a newline becomes
backslash-n, for instance — which this definition does not reproduce;
the resolver theorem below therefore restricts its inputs to
`PrintableAscii`, where this definition agrees with Go.) -/
def goQuoteBody : List Char → List Char
  | [] => []
  | c :: cs => (if c = '"' ∨ c = '\\' then ['\\', c] else [c]) ++ goQuoteBody cs

/-- Go's `%q` verb on strings of printable ASCII characters: the escaped
body wrapped in double quotes. -/
def goQuote (s : List Char) : List Char :=
  '"' :: goQuoteBody s ++ ['"']

/-- The error message of `getResourceGVR` for an unresolvable resource:
`fmt.Errorf("the server doesn't have a resource type %q", o.resource)`
(src/main.go line 292), with `%q` as `goQuote`. -/
def resourceErrMsg (resource : List Char) : List Char :=
  "the server doesn\x27t have a resource type ".data ++ goQuote resource

/-- `(*PeekOptions).getResourceGVR` (src/main.go lines 276-296): the
user argument is lower-cased, split on dots into a partial GVR, and
handed to the REST mapper (`o.mapper.ResourceFor`, a parameter here);
on failure the error quotes the original, un-lower-cased argument. -/
def getResourceGVR (mapper : GroupVersionResource → Option GroupVersionResource)
    (resource : List Char) : Except (List Char) GroupVersionResource :=
  match mapper (gvrToFind (goToLower resource)) with
  | some gvr => .ok gvr
  | none => .error (resourceErrMsg resource)

/-!
## Helper lemmas about the loop
-/

/-- Erase continuation-token payloads from an output event, leaving the
kind of event (the control-flow trace) intact. -/
def eraseToken : OutEvent → OutEvent
  | .continueTokenLine _ => .continueTokenLine ""
  | e => e

/-- Two scripted servers have the same shape when they return the same
number of pages with, pointwise, the same item counts and the same
presence/absence of a continuation token — the token values themselves
may differ arbitrarily. -/
def SameShape (pages pages2 : List PageResponse) : Prop :=
  List.Forall₂ (fun p q => p.rows = q.rows ∧ (p.cont = "" ↔ q.cont = "")) pages pages2

/-- Every execution's first request carries exactly the caller-supplied
token. -/
theorem runFrom_requests_head (it : Bool) (tok : String) (first : Bool)
    (pages : List PageResponse) (keys : List Char) :
    (runFrom it tok first pages keys).requests.head? = some tok := by
  cases pages with
  | nil => rfl
  | cons p rest =>
    cases keys with
    | nil =>
      simp only [runFrom]
      split
      · rfl
      · split
        · rfl
        · split <;> rfl
    | cons c krest =>
      simp only [runFrom]
      split
      · rfl
      · split
        · rfl
        · split
          · split <;> rfl
          · rfl

/-- Every request after the first carries, character for character, the
continuation token of the immediately preceding response. -/
theorem runFrom_requests_chain (it : Bool) (tok : String) (first : Bool)
    (pages : List PageResponse) (keys : List Char) :
    ∀ i : Nat, i + 1 < (runFrom it tok first pages keys).requests.length →
      (runFrom it tok first pages keys).requests.get? (i + 1) =
        (pages.get? i).map PageResponse.cont := by
  induction pages generalizing tok first keys with
  | nil =>
    intro i hi
    simp [runFrom] at hi
  | cons p rest ih =>
    intro i hi
    by_cases h0 : first = true ∧ p.rows = 0
    · simp [runFrom, h0] at hi
    · by_cases hc : p.cont = ""
      · simp [runFrom, h0, hc] at hi
      · cases hit : it with
        | false => simp [runFrom, h0, hc, hit] at hi
        | true =>
          cases keys with
          | nil => simp [runFrom, h0, hc, hit] at hi
          | cons c krest =>
            subst hit
            by_cases hn : c = 'n'
            · simp only [runFrom, h0, hc, hn, if_neg, if_pos, reduceIte] at hi ⊢
              cases i with
              | zero =>
                simp only [List.get?_cons_succ, List.get?_cons_zero, Option.map_some]
                rw [List.get?_zero, runFrom_requests_head]
                rfl
              | succ j =>
                simp only [List.get?_cons_succ]
                apply ih
                simpa [Nat.succ_lt_succ_iff] using hi
            · simp [runFrom, h0, hc, hn] at hi

/-- The loop issues at most one request per scripted page, plus at most
one request that the script cannot answer. -/
theorem runFrom_requests_length (it : Bool) (tok : String) (first : Bool)
    (pages : List PageResponse) (keys : List Char) :
    (runFrom it tok first pages keys).requests.length ≤ pages.length + 1 := by
  induction pages generalizing tok first keys with
  | nil => simp [runFrom]
  | cons p rest ih =>
    by_cases h0 : first = true ∧ p.rows = 0
    · simp [runFrom, h0]
    · by_cases hc : p.cont = ""
      · simp [runFrom, h0, hc]
      · cases hit : it with
        | false => simp [runFrom, h0, hc]
        | true =>
          cases keys with
          | nil => simp [runFrom, h0, hc]
          | cons c krest =>
            subst hit
            by_cases hn : c = 'n'
            · simp only [runFrom, h0, hc, hn, if_neg, if_pos, reduceIte,
                List.length_cons]
              exact Nat.succ_le_succ (ih (p.cont) false krest)
            · simp [runFrom, h0, hc, hn]

/-- The loop never inspects token values: two executions over
same-shaped servers, with arbitrary initial tokens, make the same
decisions — same result, same number of requests, same keystroke
consumption, and the same output events up to the token payload of the
token line. -/
theorem runFrom_token_invariant (it : Bool) (first : Bool) (keys : List Char)
    {pages pages2 : List PageResponse} (h : SameShape pages pages2)
    (tok tok2 : String) :
    (runFrom it tok first pages keys).result = (runFrom it tok2 first pages2 keys).result ∧
    (runFrom it tok first pages keys).requests.length =
      (runFrom it tok2 first pages2 keys).requests.length ∧
    (runFrom it tok first pages keys).output.map eraseToken =
      (runFrom it tok2 first pages2 keys).output.map eraseToken ∧
    (runFrom it tok first pages keys).keysLeft = (runFrom it tok2 first pages2 keys).keysLeft := by
  induction h generalizing tok tok2 first keys with
  | nil => simp [runFrom]
  | cons hpq htail ih =>
    rename_i p q ps qs
    obtain ⟨hrows, hcont⟩ := hpq
    by_cases h0 : first = true ∧ p.rows = 0
    · have h0q : first = true ∧ q.rows = 0 := ⟨h0.1, hrows ▸ h0.2⟩
      simp [runFrom, h0, h0q]
    · have h0q : ¬(first = true ∧ q.rows = 0) := fun hq => h0 ⟨hq.1, hrows ▸ hq.2⟩
      by_cases hc : p.cont = ""
      · have hcq : q.cont = "" := hcont.mp hc
        simp [runFrom, h0, h0q, hc, hcq, hrows, eraseToken]
      · have hcq : q.cont ≠ "" := fun hq => hc (hcont.mpr hq)
        cases hit : it with
        | false =>
          simp [runFrom, h0, h0q, hc, hcq, hrows, eraseToken]
        | true =>
          cases keys with
          | nil => simp [runFrom, h0, h0q, hc, hcq, hrows, eraseToken]
          | cons c krest =>
            subst hit
            by_cases hn : c = 'n'
            · simp only [runFrom, h0, h0q, hc, hcq, hn, if_neg, if_pos, reduceIte,
                List.length_cons, List.map_cons]
              obtain ⟨h1, h2, h3, h4⟩ := ih false krest (p.cont) (q.cont)
              simp [hrows, h1, h2, h3, h4, eraseToken]
            · simp [runFrom, h0, h0q, hc, hcq, hn, hrows, eraseToken]

/-!
## Helper lemmas about the resolver
-/

/-- Re-join dot-separated segments with dots. -/
def joinDots : List (List Char) → List Char
  | [] => []
  | [a] => a
  | a :: rest => a ++ '.' :: joinDots rest

/-- Splitting never yields an empty list of segments. -/
theorem splitOnDot_ne_nil (s : List Char) : splitOnDot s ≠ [] := by
  cases s with
  | nil => simp [splitOnDot]
  | cons c rest =>
    simp only [splitOnDot]
    split
    · simp
    · cases splitOnDot rest with
      | nil => simp [consHead]
      | cons hd tl => simp [consHead]

/-- The number of segments is the number of dots plus one. -/
theorem splitOnDot_length (s : List Char) :
    (splitOnDot s).length = s.count '.' + 1 := by
  induction s with
  | nil => rfl
  | cons c rest ih =>
    by_cases hc : c = '.'
    · subst hc
      simp [splitOnDot, List.count_cons, ih]
    · cases hsp : splitOnDot rest with
      | nil => exact absurd hsp (splitOnDot_ne_nil rest)
      | cons hd tl =>
        rw [hsp] at ih
        simp only [splitOnDot, if_neg hc, hsp, consHead, List.length_cons,
          List.count_cons] at ih ⊢
        simp only [beq_iff_eq, hc, if_false, if_neg (fun h => hc (id h))]
        omega

/-- No segment produced by splitting contains a dot. -/
theorem splitOnDot_parts (s : List Char) :
    ∀ part ∈ splitOnDot s, '.' ∉ part := by
  induction s with
  | nil =>
    intro part hp
    simp only [splitOnDot, List.mem_singleton] at hp
    subst hp
    simp
  | cons c rest ih =>
    intro part hp
    by_cases hc : c = '.'
    · rw [splitOnDot, if_pos hc] at hp
      rcases List.mem_cons.mp hp with h | h
      · subst h; simp
      · exact ih part h
    · cases hsp : splitOnDot rest with
      | nil => exact absurd hsp (splitOnDot_ne_nil rest)
      | cons hd tl =>
        rw [splitOnDot, if_neg hc, hsp, consHead] at hp
        have hhd : '.' ∉ hd := ih hd (by rw [hsp]; exact List.mem_cons_self hd tl)
        rcases List.mem_cons.mp hp with h | h
        · subst h
          intro hm
          rcases List.mem_cons.mp hm with h | h
          · exact hc h.symm
          · exact hhd h
        · exact ih part (by rw [hsp]; exact List.mem_cons_of_mem hd h)

/-- Splitting and re-joining recovers the original string. -/
theorem splitOnDot_join (s : List Char) : joinDots (splitOnDot s) = s := by
  induction s with
  | nil => rfl
  | cons c rest ih =>
    by_cases hc : c = '.'
    · subst hc
      rw [splitOnDot, if_pos rfl]
      cases hsp : splitOnDot rest with
      | nil => exact absurd hsp (splitOnDot_ne_nil rest)
      | cons hd tl =>
        rw [hsp] at ih
        show [] ++ '.' :: joinDots (hd :: tl) = '.' :: rest
        rw [List.nil_append, ih]
    · cases hsp : splitOnDot rest with
      | nil => exact absurd hsp (splitOnDot_ne_nil rest)
      | cons hd tl =>
        rw [splitOnDot, if_neg hc, hsp, consHead]
        rw [hsp] at ih
        cases tl with
        | nil =>
          show c :: hd = c :: rest
          rw [show joinDots [hd] = hd from rfl] at ih
          rw [ih]
        | cons t0 t1 =>
          show (c :: hd) ++ '.' :: joinDots (t0 :: t1) = c :: rest
          rw [List.cons_append]
          show c :: (hd ++ '.' :: joinDots (t0 :: t1)) = c :: rest
          rw [show joinDots (hd :: t0 :: t1) = hd ++ '.' :: joinDots (t0 :: t1) from rfl] at ih
          rw [ih]

/-- A two-segment split exposes the unique dot: the string is the left
segment, a dot, then the right segment, and neither segment contains a
dot. -/
theorem splitOnDot_pair {s a b : List Char} (h : splitOnDot s = [a, b]) :
    s = a ++ '.' :: b ∧ '.' ∉ a ∧ '.' ∉ b := by
  refine ⟨?_, splitOnDot_parts s a (by rw [h]; simp), splitOnDot_parts s b (by rw [h]; simp)⟩
  have hj := splitOnDot_join s
  rw [h] at hj
  exact hj.symm

/-- A string with exactly one dot splits into exactly two segments. -/
theorem splitOnDot_of_count_one {s : List Char} (h : s.count '.' = 1) :
    ∃ a b, splitOnDot s = [a, b] := by
  have hl : (splitOnDot s).length = 2 := by rw [splitOnDot_length, h]
  rcases hsp : splitOnDot s with _ | ⟨a, _ | ⟨b, _ | ⟨x, t⟩⟩⟩ <;> rw [hsp] at hl <;>
    simp at hl
  exact ⟨a, b, rfl⟩

/-- A dot-free string splits into the single segment that is the string
itself. -/
theorem splitOnDot_of_count_zero {s : List Char} (h : s.count '.' = 0) :
    splitOnDot s = [s] := by
  have hl : (splitOnDot s).length = 1 := by rw [splitOnDot_length, h]
  rcases hsp : splitOnDot s with _ | ⟨a, _ | ⟨b, t⟩⟩ <;> rw [hsp] at hl <;> simp at hl
  have hj := splitOnDot_join s
  rw [hsp] at hj
  rw [show joinDots [a] = a from rfl] at hj
  rw [hj]

/-- On strings free of characters that `%q` escapes, quoting is plain
double-quote wrapping. -/
theorem goQuoteBody_of_no_escape :
    ∀ (s : List Char), (∀ c ∈ s, c ≠ '"' ∧ c ≠ '\\') → goQuoteBody s = s
  | [], _ => rfl
  | c :: cs, h => by
    have hc := h c (List.mem_cons_self c cs)
    have ih := goQuoteBody_of_no_escape cs fun d hd => h d (List.mem_cons_of_mem c hd)
    simp [goQuoteBody, hc.1, hc.2, ih]

/-- Lemma: a two-segment split determines the partial GVR: left segment
is the resource, right segment is the group. -/
theorem gvrToFind_pair {s a b : List Char} (h : splitOnDot s = [a, b]) :
    gvrToFind s = ⟨b, [], a⟩ := by
  simp [gvrToFind, h]

/-- Lemma: a dot-free argument gives a group-less partial GVR. -/
theorem gvrToFind_no_dot {s : List Char} (h : s.count '.' = 0) :
    gvrToFind s = ⟨[], [], s⟩ := by
  simp [gvrToFind, splitOnDot_of_count_zero h]

/-!
## Claims
-/

/-- C1 counterexample: the claim says a failed keystroke read is treated
identically to a stop decision (clean, successful termination).  On the
code it is not: with a page carrying a continuation token and a closed
input stream, the loop's failed ReadRune makes Run return the read
error, so the invocation ends in an error (non-zero exit), not in a
clean stop. -/
theorem read_failure_is_error_counterexample :
    (runFrom true "" true [⟨2, "t"⟩] []).result = RunResult.readErr ∧
    (runFrom true "" true [⟨2, "t"⟩] []).exitSuccess = false ∧
    (runFrom true "" true [⟨2, "x"⟩] ['q']).result = RunResult.ok := by
  refine ⟨?_, ?_, ?_⟩ <;> rfl

/-- C1 (amended): in Interactive mode, when reading the single keystroke
fails, the Controller escalates the failure: Run returns the read error
(so the invocation exits non-zero), after the prompt and with no further
output, no further fetch, and no looping. -/
theorem read_failure_escalates (tok : String) (first : Bool) (p : PageResponse)
    (rest : List PageResponse)
    (h0 : ¬(first = true ∧ p.rows = 0)) (hc : p.cont ≠ "") :
    runFrom true tok first (p :: rest) [] =
      ⟨[tok], [.renderPage p.rows, .prompt], [], .readErr⟩ ∧
    (runFrom true tok first (p :: rest) []).exitSuccess = false := by
  have h : runFrom true tok first (p :: rest) [] =
      ⟨[tok], [.renderPage p.rows, .prompt], [], .readErr⟩ := by
    simp [runFrom, h0, hc]
  exact ⟨h, by rw [h]; rfl⟩

/-- C1 witness: the amended theorem at a concrete run. -/
theorem read_failure_escalates_witness :
    runFrom true "" true [⟨2, "t"⟩] [] =
      ⟨[""], [.renderPage 2, .prompt], [], .readErr⟩ ∧
    (runFrom true "" true [⟨2, "t"⟩] []).exitSuccess = false :=
  read_failure_escalates "" true ⟨2, "t"⟩ [] (by decide) (by decide)

/-- C2: in SinglePass mode, a page (reaching the Deciding step, i.e. not
the zero-item first page) whose response carries a non-empty
continuation token makes the program print exactly one token line —
the literal label "Continue Token:" followed by that token, on its own
line — and terminate successfully, with no second fetch and no
prompt and no keystroke consumed. -/
theorem singlepass_prints_token (tok : String) (first : Bool) (p : PageResponse)
    (rest : List PageResponse) (keys : List Char)
    (h0 : ¬(first = true ∧ p.rows = 0)) (hc : p.cont ≠ "") :
    runFrom false tok first (p :: rest) keys =
      ⟨[tok], [.renderPage p.rows, .continueTokenLine p.cont], keys, .ok⟩ ∧
    (OutEvent.continueTokenLine p.cont).text = "\nContinue Token: " ++ p.cont ++ "\n" := by
  constructor
  · simp [runFrom, h0, hc]
  · rfl

/-- C2 witness: SinglePass with a 3-row page and a returned cursor. -/
theorem singlepass_prints_token_witness :
    runFrom false "" true [⟨3, "tok"⟩] [] =
      ⟨[""], [.renderPage 3, .continueTokenLine "tok"], [], .ok⟩ ∧
    (OutEvent.continueTokenLine "tok").text = "\nContinue Token: " ++ "tok" ++ "\n" :=
  singlepass_prints_token "" true ⟨3, "tok"⟩ [] [] (by decide) (by decide)

/-- C3: in Interactive mode, a page (reaching the Deciding step) whose
response carries a non-empty token prompts for exactly one keystroke
with the hint naming the two actions; keystroke n re-enters the loop
with the current token set to that response's token (the very next
request carries it), and any other keystroke terminates successfully
consuming exactly that one keystroke, with no token line and no
end-of-list marker. -/
theorem interactive_prompt_decision (tok : String) (first : Bool) (p : PageResponse)
    (rest : List PageResponse) (c : Char) (krest : List Char)
    (h0 : ¬(first = true ∧ p.rows = 0)) (hc : p.cont ≠ "") :
    OutEvent.prompt.text = "\n--- [n] next page, [q] quit: " ∧
    (c = 'n' →
      runFrom true tok first (p :: rest) (c :: krest) =
        ⟨tok :: (runFrom true p.cont false rest krest).requests,
         .renderPage p.rows :: .prompt :: .echoNewline ::
           (runFrom true p.cont false rest krest).output,
         (runFrom true p.cont false rest krest).keysLeft,
         (runFrom true p.cont false rest krest).result⟩ ∧
      (runFrom true p.cont false rest krest).requests.head? = some p.cont) ∧
    (c ≠ 'n' →
      runFrom true tok first (p :: rest) (c :: krest) =
        ⟨[tok], [.renderPage p.rows, .prompt, .echoNewline], krest, .ok⟩) := by
  refine ⟨rfl, fun hn => ⟨?_, runFrom_requests_head true (p.cont) false rest krest⟩,
    fun hn => ?_⟩
  · simp [runFrom, h0, hc, hn]
  · simp [runFrom, h0, hc, hn]

/-- C3 witness: the scenario of two 5-row pages with input n then x. -/
theorem interactive_prompt_decision_witness :
    runFrom true "" true [⟨5, "t1"⟩, ⟨5, "t2"⟩] ['n', 'x'] =
      ⟨["", "t1"],
       [.renderPage 5, .prompt, .echoNewline, .renderPage 5, .prompt, .echoNewline],
       [], .ok⟩ := by
  have h1 := interactive_prompt_decision "" true ⟨5, "t1"⟩ [⟨5, "t2"⟩] 'n' ['x']
    (by decide) (by decide)
  have h2 := (interactive_prompt_decision "t1" false ⟨5, "t2"⟩ [] 'x' []
    (by decide) (by decide)).2.2 (by decide)
  rw [(h1.2.1 rfl).1, h2]

/-- C4: a page (reaching the Deciding step) whose response carries no
continuation token ends the loop successfully: Interactive mode prints
the end-of-list marker, SinglePass mode prints nothing extra, and in
both modes no keystroke is read (the keystroke stream is untouched). -/
theorem no_token_terminates (it : Bool) (tok : String) (first : Bool) (p : PageResponse)
    (rest : List PageResponse) (keys : List Char)
    (h0 : ¬(first = true ∧ p.rows = 0)) (hc : p.cont = "") :
    runFrom it tok first (p :: rest) keys =
      ⟨[tok], .renderPage p.rows :: (if it then [.endOfList] else []), keys, .ok⟩ := by
  simp [runFrom, h0, hc]

/-- C4 witness: an interactive run hitting the exhausted collection with
keystrokes still available — none are consumed. -/
theorem no_token_terminates_witness :
    runFrom true "" false [⟨2, ""⟩] ['q'] =
      ⟨[""], [.renderPage 2, .endOfList], ['q'], .ok⟩ :=
  no_token_terminates true "" false ⟨2, ""⟩ [] ['q'] (by decide) rfl

/-- C5: a first page with zero items makes the program emit exactly the
"No resources found." message, skip the Renderer, never print a token,
and terminate as a success, in both modes and regardless of any
continuation token in the response. -/
theorem empty_first_page_no_resources (it : Bool) (tok cont : String)
    (rest : List PageResponse) (keys : List Char) :
    runFrom it tok true (⟨0, cont⟩ :: rest) keys = ⟨[tok], [.noResources], keys, .ok⟩ ∧
    (runFrom it tok true (⟨0, cont⟩ :: rest) keys).exitSuccess = true ∧
    OutEvent.noResources.text = "No resources found.\n" := by
  have h : runFrom it tok true (⟨0, cont⟩ :: rest) keys =
      ⟨[tok], [.noResources], keys, .ok⟩ := by
    simp [runFrom]
  exact ⟨h, by rw [h]; rfl, rfl⟩

/-- C6: every invocation with a non-positive limit, or with both the
interactive flag and an initial token, or with interactive mode and an
output format other than default ("") or "wide", fails validation with
a configuration error before any request is issued and before the loop
starts: no request, nothing on the normal output stream, non-zero
exit. -/
theorem invalid_config_rejected (o : PeekOptions) (pages : List PageResponse)
    (keys : List Char)
    (h : o.limit ≤ 0 ∨ (o.interactive = true ∧ o.continueToken ≠ "") ∨
      (o.interactive = true ∧ o.outputFormat ≠ "" ∧ o.outputFormat ≠ "wide")) :
    (∃ msg, cmdRun o pages keys = .configError msg) ∧
    (cmdRun o pages keys).requests = [] ∧
    (cmdRun o pages keys).output = [] ∧
    (cmdRun o pages keys).exitSuccess = false := by
  have hv : ∃ msg, Validate o = .error msg := by
    unfold Validate
    rcases h with h1 | h2 | h3
    · exact ⟨_, if_pos h1⟩
    · by_cases h1 : o.limit ≤ 0
      · exact ⟨_, if_pos h1⟩
      · exact ⟨"cannot use --interactive and --continue flags together",
          by rw [if_neg h1, if_pos h2]⟩
    · by_cases h1 : o.limit ≤ 0
      · exact ⟨_, if_pos h1⟩
      · by_cases h2 : o.interactive = true ∧ o.continueToken ≠ ""
        · exact ⟨"cannot use --interactive and --continue flags together",
            by rw [if_neg h1, if_pos h2]⟩
        · exact ⟨"interactive mode is only supported for standard and wide table output",
            by rw [if_neg h1, if_neg h2, if_pos h3]⟩
  obtain ⟨msg, hm⟩ := hv
  refine ⟨⟨msg, ?_⟩, ?_, ?_, ?_⟩ <;>
    simp [cmdRun, hm, CmdOutcome.requests, CmdOutcome.output, CmdOutcome.exitSuccess]

/-- C6 witness: limit 0 is rejected with no request and no output. -/
theorem invalid_config_rejected_witness :
    (∃ msg, cmdRun ⟨0, "", false, "", false, ""⟩ [⟨3, "t"⟩] [] = .configError msg) ∧
    (cmdRun ⟨0, "", false, "", false, ""⟩ [⟨3, "t"⟩] []).requests = [] ∧
    (cmdRun ⟨0, "", false, "", false, ""⟩ [⟨3, "t"⟩] []).output = [] ∧
    (cmdRun ⟨0, "", false, "", false, ""⟩ [⟨3, "t"⟩] []).exitSuccess = false :=
  invalid_config_rejected ⟨0, "", false, "", false, ""⟩ [⟨3, "t"⟩] [] (Or.inl (by decide))

/-- C7: token round-trip and opacity.  First part: the first request of
every execution carries exactly the caller-supplied token and every
later request carries, character for character, the continuation token
of the immediately preceding response.  Second part: the core never
parses or inspects tokens — over two servers of the same shape (same
page count, item counts and token presence/absence pattern) and any two
initial tokens of the same presence pattern, the loop makes identical
decisions: same result, same number of requests, same keystroke
consumption and the same output up to the token payload of the token
line. -/
theorem token_opacity :
    (∀ (it : Bool) (tok : String) (first : Bool) (pages : List PageResponse)
      (keys : List Char),
      (runFrom it tok first pages keys).requests.head? = some tok ∧
      ∀ i : Nat, i + 1 < (runFrom it tok first pages keys).requests.length →
        (runFrom it tok first pages keys).requests.get? (i + 1) =
          (pages.get? i).map PageResponse.cont) ∧
    (∀ (it : Bool) (first : Bool) (keys : List Char) (tok tok2 : String)
      (pages pages2 : List PageResponse),
      SameShape pages pages2 → (tok = "" ↔ tok2 = "") →
      (runFrom it tok first pages keys).result = (runFrom it tok2 first pages2 keys).result ∧
      (runFrom it tok first pages keys).requests.length =
        (runFrom it tok2 first pages2 keys).requests.length ∧
      (runFrom it tok first pages keys).output.map eraseToken =
        (runFrom it tok2 first pages2 keys).output.map eraseToken ∧
      (runFrom it tok first pages keys).keysLeft =
        (runFrom it tok2 first pages2 keys).keysLeft) :=
  ⟨fun it tok first pages keys =>
    ⟨runFrom_requests_head it tok first pages keys,
     runFrom_requests_chain it tok first pages keys⟩,
   fun it first keys tok tok2 _ _ h _ =>
    runFrom_token_invariant it first keys h tok tok2⟩

/-- C7 witness: a short token and a longer opaque blob produce the same
erased behaviour, and the first request echoes the supplied token. -/
theorem token_opacity_witness :
    (runFrom true "t0" true [⟨1, "AAAA"⟩] ['q']).requests.head? = some "t0" ∧
    (runFrom true "t0" true [⟨1, "AAAA"⟩] ['q']).output.map eraseToken =
      (runFrom true "t0" true [⟨1, "B"⟩] ['q']).output.map eraseToken :=
  ⟨(token_opacity.1 true "t0" true [⟨1, "AAAA"⟩] ['q']).1,
   ((token_opacity.2 true true ['q'] "t0" "t0" [⟨1, "AAAA"⟩] [⟨1, "B"⟩]
     (List.Forall₂.cons (by decide) List.Forall₂.nil) Iff.rfl).2.2.1)⟩

/-- C8 counterexample: the claim requires the UnknownResourceError
message to contain the original user string verbatim; the code formats
it with the quoting verb, which escapes a double quote in the input, so
for the five-character input po"ds the message does not contain the
input verbatim. -/
theorem resolver_message_not_verbatim_counterexample :
    getResourceGVR (fun _ => none) ['p', 'o', '"', 'd', 's'] =
      .error (resourceErrMsg ['p', 'o', '"', 'd', 's']) ∧
    ¬ ['p', 'o', '"', 'd', 's'] <:+: resourceErrMsg ['p', 'o', '"', 'd', 's'] := by
  exact ⟨rfl, by decide⟩

/-- C8 (amended): for inputs of printable ASCII characters — the domain
on which the embedded lower-casing and quoting agree with Go's —
resolution lower-cases the input first; with exactly one dot in the
lower-cased input the left segment becomes the resource name and the
right segment the API group, with zero dots the whole string is the
resource name and the group stays empty; when the mapper reports no
match the error message contains the quoted form of the original
(pre-lower-casing) input, which contains the input verbatim whenever
the input also has no character that the quoting verb escapes within
printable ASCII (double quote or backslash). -/
theorem resolver_lowercase_split_and_error
    (mapper : GroupVersionResource → Option GroupVersionResource) (input : List Char)
    (hascii : PrintableAscii input) :
    ((goToLower input).count '.' = 1 →
      ∃ name group, '.' ∉ name ∧ '.' ∉ group ∧
        goToLower input = name ++ '.' :: group ∧
        gvrToFind (goToLower input) = ⟨group, [], name⟩) ∧
    ((goToLower input).count '.' = 0 →
      gvrToFind (goToLower input) = ⟨[], [], goToLower input⟩) ∧
    (mapper (gvrToFind (goToLower input)) = none →
      getResourceGVR mapper input = .error (resourceErrMsg input)) ∧
    ((∀ c ∈ input, c ≠ '"' ∧ c ≠ '\\') → input <:+: resourceErrMsg input) := by
  refine ⟨?_, ?_, ?_, ?_⟩
  · intro h1
    obtain ⟨a, b, hab⟩ := splitOnDot_of_count_one h1
    obtain ⟨hs, ha, hb⟩ := splitOnDot_pair hab
    exact ⟨a, b, ha, hb, hs, gvrToFind_pair hab⟩
  · intro h0
    exact gvrToFind_no_dot h0
  · intro hm
    simp [getResourceGVR, hm]
  · intro hesc
    refine ⟨"the server doesn\x27t have a resource type ".data ++ ['"'], ['"'], ?_⟩
    simp [resourceErrMsg, goQuote, goQuoteBody_of_no_escape input hesc, List.append_assoc]

/-- C8 witness: the amended theorem on the input Pods with a mapper that
knows no types. -/
theorem resolver_lowercase_split_and_error_witness :
    gvrToFind (goToLower ['P', 'o', 'd', 's']) = ⟨[], [], goToLower ['P', 'o', 'd', 's']⟩ ∧
    ['P', 'o', 'd', 's'] <:+: resourceErrMsg ['P', 'o', 'd', 's'] :=
  ⟨(resolver_lowercase_split_and_error (fun _ => none) ['P', 'o', 'd', 's']
      (by unfold PrintableAscii; decide)).2.1 (by decide),
   (resolver_lowercase_split_and_error (fun _ => none) ['P', 'o', 'd', 's']
      (by unfold PrintableAscii; decide)).2.2.2 (by decide)⟩

/-- C9: the loop always terminates within the page count plus one
iterations — it issues at most one request per scripted page plus at
most one unanswerable request — and every branch of the Deciding step
other than the continue keystroke ends the loop with no further
request: an absent token (either mode), a present token in SinglePass
mode, a keystroke other than n, and a failed keystroke read. -/
theorem loop_termination_bound :
    (∀ (it : Bool) (tok : String) (first : Bool) (pages : List PageResponse)
      (keys : List Char),
      (runFrom it tok first pages keys).requests.length ≤ pages.length + 1) ∧
    (∀ (it : Bool) (tok : String) (first : Bool) (p : PageResponse)
      (rest : List PageResponse) (keys : List Char),
      ¬(first = true ∧ p.rows = 0) → p.cont = "" →
      (runFrom it tok first (p :: rest) keys).requests = [tok]) ∧
    (∀ (tok : String) (first : Bool) (p : PageResponse) (rest : List PageResponse)
      (keys : List Char),
      ¬(first = true ∧ p.rows = 0) → p.cont ≠ "" →
      (runFrom false tok first (p :: rest) keys).requests = [tok]) ∧
    (∀ (tok : String) (first : Bool) (p : PageResponse) (rest : List PageResponse)
      (c : Char) (krest : List Char),
      ¬(first = true ∧ p.rows = 0) → p.cont ≠ "" → c ≠ 'n' →
      (runFrom true tok first (p :: rest) (c :: krest)).requests = [tok]) ∧
    (∀ (tok : String) (first : Bool) (p : PageResponse) (rest : List PageResponse),
      ¬(first = true ∧ p.rows = 0) → p.cont ≠ "" →
      (runFrom true tok first (p :: rest) []).requests = [tok]) := by
  refine ⟨runFrom_requests_length, ?_, ?_, ?_, ?_⟩ <;> intros <;> simp [runFrom, *]

/-- C9 witness: the bound and a stopping branch at concrete runs. -/
theorem loop_termination_bound_witness :
    (runFrom true "" true [⟨2, "t"⟩] ['n']).requests.length ≤ 1 + 1 ∧
    (runFrom true "" false [⟨2, ""⟩] ['n']).requests = [""] :=
  ⟨loop_termination_bound.1 true "" true [⟨2, "t"⟩] ['n'],
   loop_termination_bound.2.1 true "" false ⟨2, ""⟩ [] ['n'] (by decide) rfl⟩

/-- C10: the two Run variants in the source — the Table-negotiating
REST-client loop and the dynamic-client loop — are behaviourally
equivalent controllers: on the same options, the same page responses
(same item counts and continuation tokens) and the same keystrokes they
produce identical requests, identical auxiliary output, identical
keystroke consumption and the same outcome. -/
theorem dual_run_variants_equivalent (it : Bool) (tok : String) (first : Bool)
    (pages : List PageResponse) (keys : List Char) :
    runFromDyn it tok first pages keys = runFrom it tok first pages keys := by
  induction pages generalizing tok first keys with
  | nil => rfl
  | cons p rest ih =>
    simp only [runFrom, runFromDyn]
    split
    · rfl
    · split
      · rfl
      · split
        · cases keys with
          | nil => rfl
          | cons c krest => split <;> simp [ih]
        · rfl

end KubectlPeek
